import Mathlib

/-!
Verification of the THRYX pricing core: the constant-product AMM (`SimpleAMM`),
the quadratic bonding-curve token (`CreatorCoin`) and the median-consensus
price oracle (`AgentOracle`).  Solidity contracts are shallowly embedded as
pure Lean functions over explicit state records; `uint256` values are
modelled as `Nat` (all the arithmetic proved about here stays far below
2^256 and Solidity 0.8 reverts on overflow, so no wrap-around occurs on the
covered inputs), reverting calls are modelled as `Except.error` carrying no
state (the EVM rolls back every state change of a reverted call), and token
transfers are modelled as always succeeding.
-/

/-- Projection of the error of an `Except` result, `none` on success. -/
def exErr {ε α : Type} : Except ε α → Option ε
  | .error e => some e
  | .ok _ => none

namespace SimpleAMM

/-- Revert reasons of `SimpleAMM`, one constructor per `require` string. -/
inductive AmmErr where
  | amountsNotPositive
  | insufficientLiquidityMinted
  | liquidityNotPositive
  | insufficientLPTokens
  | insufficientLiquidityBurned
  | amountNotPositive
  | invalidToken
  | slippageExceeded
  | insufficientLiquidity
  deriving DecidableEq, Repr

/-- State of the `SimpleAMM` contract: the two token addresses, the two
reserves, the LP-token `totalSupply` (`totalShares`) and `balanceOf`
(`shares`) inherited from ERC20, and the two fee counters. -/
structure Pool where
  tokenA : Nat
  tokenB : Nat
  reserveA : Nat
  reserveB : Nat
  totalShares : Nat
  shares : Nat → Nat
  totalFeesA : Nat
  totalFeesB : Nat

def FEE_NUMERATOR : Nat := 3

def FEE_DENOMINATOR : Nat := 1000

/-- The `while (x < z) { z = x; x = (y / x + x) / 2; }` loop of
`SimpleAMM.sqrt`, with an explicit fuel argument so that the function is
structurally recursive and kernel-computable.  Each iteration strictly
decreases `z` (the loop runs only while `x < z` and then sets `z := x`), so
any `fuel ≥ z` makes the fuel inexhaustible; `sqrt` below passes `fuel = y ≥ z`. -/
def sqrtLoop (y : Nat) : Nat → Nat → Nat → Nat
  | 0, _, z => z
  | fuel + 1, x, z => if x < z then sqrtLoop y fuel ((y / x + x) / 2) x else z

/-- `SimpleAMM.sqrt`: Babylonian integer square root. -/
def sqrt (y : Nat) : Nat :=
  if 3 < y then sqrtLoop y y (y / 2 + 1) y
  else if y ≠ 0 then 1 else 0

/-- `SimpleAMM.addLiquidity`.  The two `transferFrom` calls are modelled as
succeeding; `_mint` updates `totalShares`/`shares`.  On the proportional
branch the source divides by `reserveA` and `reserveB`; a zero divisor makes
the EVM revert with a panic, while `Nat` division yields `0` and hence the
`insufficientLiquidityMinted` error — both are failures, and the theorems
below assume reserve positivity wherever the distinction could matter. -/
def addLiquidity (p : Pool) (sender amountA amountB : Nat) :
    Except AmmErr (Pool × Nat) :=
  if amountA = 0 ∨ amountB = 0 then .error .amountsNotPositive
  else
    let liquidity :=
      if p.totalShares = 0 then sqrt (amountA * amountB)
      else
        min (amountA * p.totalShares / p.reserveA)
          (amountB * p.totalShares / p.reserveB)
    if liquidity = 0 then .error .insufficientLiquidityMinted
    else
      .ok ({ p with
              totalShares := p.totalShares + liquidity
              shares := fun a => if a = sender then p.shares a + liquidity else p.shares a
              reserveA := p.reserveA + amountA
              reserveB := p.reserveB + amountB }, liquidity)

/-- `SimpleAMM.removeLiquidity`.  The two outbound `transfer` calls are
modelled as succeeding. -/
def removeLiquidity (p : Pool) (sender liquidity : Nat) :
    Except AmmErr (Pool × Nat × Nat) :=
  if liquidity = 0 then .error .liquidityNotPositive
  else if p.shares sender < liquidity then .error .insufficientLPTokens
  else
    let amountA := liquidity * p.reserveA / p.totalShares
    let amountB := liquidity * p.reserveB / p.totalShares
    if amountA = 0 ∨ amountB = 0 then .error .insufficientLiquidityBurned
    else
      .ok ({ p with
              totalShares := p.totalShares - liquidity
              shares := fun a => if a = sender then p.shares a - liquidity else p.shares a
              reserveA := p.reserveA - amountA
              reserveB := p.reserveB - amountB }, amountA, amountB)

/-- The reserve the swap input side holds: `reserveA` when `tokenIn` is
`tokenA`, else `reserveB` (the tuple selection in `SimpleAMM.swap`). -/
def reserveInOf (p : Pool) (tokenIn : Nat) : Nat :=
  if tokenIn = p.tokenA then p.reserveA else p.reserveB

/-- The reserve the swap output side holds. -/
def reserveOutOf (p : Pool) (tokenIn : Nat) : Nat :=
  if tokenIn = p.tokenA then p.reserveB else p.reserveA

/-- `SimpleAMM.swap`.  Inbound `transferFrom` and outbound `transfer` are
modelled as succeeding. -/
def swap (p : Pool) (tokenIn amountIn minAmountOut : Nat) :
    Except AmmErr (Pool × Nat) :=
  if amountIn = 0 then .error .amountNotPositive
  else if tokenIn ≠ p.tokenA ∧ tokenIn ≠ p.tokenB then .error .invalidToken
  else
    let amountInWithFee := amountIn * (FEE_DENOMINATOR - FEE_NUMERATOR)
    let amountOut :=
      amountInWithFee * reserveOutOf p tokenIn /
        (reserveInOf p tokenIn * FEE_DENOMINATOR + amountInWithFee)
    if amountOut < minAmountOut then .error .slippageExceeded
    else if reserveOutOf p tokenIn ≤ amountOut then .error .insufficientLiquidity
    else if tokenIn = p.tokenA then
      .ok ({ p with
              reserveA := p.reserveA + amountIn
              reserveB := p.reserveB - amountOut
              totalFeesA := p.totalFeesA + amountIn * FEE_NUMERATOR / FEE_DENOMINATOR },
        amountOut)
    else
      .ok ({ p with
              reserveB := p.reserveB + amountIn
              reserveA := p.reserveA - amountOut
              totalFeesB := p.totalFeesB + amountIn * FEE_NUMERATOR / FEE_DENOMINATOR },
        amountOut)

/-- `SimpleAMM.getAmountOut` (view). -/
def getAmountOut (p : Pool) (tokenIn amountIn : Nat) : Nat :=
  let amountInWithFee := amountIn * (FEE_DENOMINATOR - FEE_NUMERATOR)
  amountInWithFee * reserveOutOf p tokenIn /
    (reserveInOf p tokenIn * FEE_DENOMINATOR + amountInWithFee)

/-- Concrete pool for the C1 counterexample: `reserveB = 0`. -/
def poolCex1 : Pool := ⟨1, 2, 1, 0, 0, fun _ => 0, 0, 0⟩

/-- Concrete pool for the C1 witness. -/
def poolWit1 : Pool := ⟨1, 2, 1000, 1000, 0, fun _ => 0, 0, 0⟩

/-- Concrete pool for the C2 counterexample: tiny output reserve. -/
def poolCex2 : Pool := ⟨1, 2, 1000, 1, 0, fun _ => 0, 0, 0⟩

/-- Concrete pool for the C2 witness. -/
def poolWit2 : Pool := ⟨1, 2, 1000, 1000, 0, fun _ => 0, 0, 0⟩

/-- The pool the C2-witness swap produces. -/
def poolWit2End : Pool := ⟨1, 2, 1010, 991, 0, fun _ => 0, 0, 0⟩

/-- Concrete fresh pool for the C3 witness. -/
def poolWit3 : Pool := ⟨1, 2, 0, 0, 0, fun _ => 0, 0, 0⟩

/-- Degenerate pool for the C9 counterexample: nonzero reserves with zero
outstanding shares. -/
def poolCex9 : Pool := ⟨1, 2, 5, 5, 0, fun _ => 0, 0, 0⟩

/-- Concrete fresh pool for the C9 witness. -/
def poolWit9 : Pool := ⟨1, 2, 0, 0, 0, fun _ => 0, 0, 0⟩

/-- The pool after the C9-witness deposit of `(4, 9)` by holder `9`. -/
def poolWit9Mid : Pool :=
  { poolWit9 with
      totalShares := poolWit9.totalShares + 6
      shares := fun x => if x = 9 then poolWit9.shares x + 6 else poolWit9.shares x
      reserveA := poolWit9.reserveA + 4
      reserveB := poolWit9.reserveB + 9 }

/-- The pool after the C9-witness withdrawal of all 6 shares. -/
def poolWit9End : Pool :=
  { poolWit9Mid with
      totalShares := poolWit9Mid.totalShares - 6
      shares := fun x => if x = 9 then poolWit9Mid.shares x - 6 else poolWit9Mid.shares x
      reserveA := poolWit9Mid.reserveA - 4
      reserveB := poolWit9Mid.reserveB - 9 }

/-- Concrete pool for the C10 witness. -/
def poolWit10 : Pool := ⟨1, 2, 50, 100, 0, fun _ => 0, 0, 0⟩

end SimpleAMM

namespace CreatorCoin

def BASE_PRICE : Nat := 10 ^ 14

def GROWTH_FACTOR : Nat := 10 ^ 12

/-- The `calculatedPrice` local of `CreatorCoin.getCurrentPrice`: the
quadratic bonding curve `BASE_PRICE + normalized^2 * GROWTH_FACTOR / 1e9`
with `normalized = supply / 1e15`. -/
def calculatedPrice (supply : Nat) : Nat :=
  if supply = 0 then BASE_PRICE
  else BASE_PRICE + supply / 10 ^ 15 * (supply / 10 ^ 15) * GROWTH_FACTOR / 10 ^ 9

/-- `CreatorCoin.getCurrentPrice`, as a function of `totalSupply()` and the
stored `priceFloor`. -/
def getCurrentPrice (supply priceFloor : Nat) : Nat :=
  if 0 < priceFloor ∧ calculatedPrice supply < priceFloor then priceFloor
  else calculatedPrice supply

/-- Observable state of `CreatorCoin` for the floor-setting entry point:
the `Ownable` owner and the stored `priceFloor`. -/
structure CoinState where
  owner : Nat
  priceFloor : Nat
  deriving DecidableEq, Repr

/-- Revert reason of the `onlyOwner` modifier. -/
inductive CoinErr where
  | notOwner
  deriving DecidableEq, Repr

/-- `CreatorCoin.setPriceFloor`: `onlyOwner`-restricted unconditional
assignment `priceFloor = floor` — the body performs no comparison with the
previous floor. -/
def setPriceFloor (c : CoinState) (caller floor : Nat) : Except CoinErr CoinState :=
  if caller = c.owner then .ok { c with priceFloor := floor } else .error .notOwner

end CreatorCoin

namespace AgentOracle

/-- One entry of a feed's submission window. -/
structure PriceData where
  price : Nat
  timestamp : Nat
  submitter : Nat
  deriving DecidableEq, Repr

/-- Per-pair feed state (`PriceFeed` struct of the source). -/
structure PriceFeed where
  pair : Nat
  consensusPrice : Nat
  lastUpdate : Nat
  submissionCount : Nat
  submissions : List PriceData
  deriving DecidableEq, Repr

/-- Per-agent reputation record (`AgentReputation` struct of the source). -/
structure AgentReputation where
  totalSubmissions : Nat
  accurateSubmissions : Nat
  lastSubmission : Nat
  isBanned : Bool
  deriving DecidableEq, Repr

/-- Full oracle state: the feed and reputation mappings, the registry's
`validateAgent` answer (an external read, modelled as part of the state),
the `activePairs` array and the `Pausable` flag.  Pairs and addresses are
modelled as `Nat`; a feed with `pair = 0` is uninitialized (`bytes32(0)`). -/
structure OracleState where
  feeds : Nat → PriceFeed
  reps : Nat → AgentReputation
  validAgent : Nat → Bool
  activePairs : List Nat
  paused : Bool

/-- Revert reasons of `AgentOracle.submitPrice`. -/
inductive OracleErr where
  | whenPaused
  | notValidAgent
  | invalidPrice
  | agentBanned
  | excessiveDeviation
  | alreadySubmitted
  deriving DecidableEq, Repr

def MIN_SUBMISSIONS : Nat := 3

def SUBMISSION_WINDOW : Nat := 30

def MAX_DEVIATION_BPS : Nat := 1000

def ACCURACY_THRESHOLD_BPS : Nat := 200

/-- `AgentOracle._calculateDeviation`: `|price1 - price2| * 10000 / price2`
in basis points. -/
def calculateDeviation (price1 price2 : Nat) : Nat :=
  if price1 = price2 then 0
  else (if price1 > price2 then price1 - price2 else price2 - price1) * 10000 / price2

/-- `AgentOracle._updateReputation`: bump the accuracy counter, and once at
least 20 lifetime submissions exist with accuracy below 30%, set the
permanent ban flag. -/
def updateReputation (rep : AgentReputation) (accurate : Bool) : AgentReputation :=
  let rep1 :=
    if accurate then { rep with accurateSubmissions := rep.accurateSubmissions + 1 } else rep
  if 10 ≤ rep1.totalSubmissions then
    if 20 ≤ rep1.totalSubmissions ∧
        rep1.accurateSubmissions * 100 / rep1.totalSubmissions < 30 then
      { rep1 with isBanned := true }
    else rep1
  else rep1

/-- Ascending insertion of one element (one inner pass of the source's
insertion sort). -/
def insertAsc (x : Nat) : List Nat → List Nat
  | [] => [x]
  | y :: ys => if x ≤ y then x :: y :: ys else y :: insertAsc x ys

/-- The insertion sort `_calculateConsensus` runs over the submitted
prices (same ascending result as the source's in-place variant). -/
def insertionSort : List Nat → List Nat
  | [] => []
  | x :: xs => insertAsc x (insertionSort xs)

/-- Median selection of `_calculateConsensus`: floor-average of the two
middle values for an even count, the middle value for an odd count. -/
def medianOf (prices : List Nat) (count : Nat) : Nat :=
  if count % 2 = 0 then (prices.getD (count / 2 - 1) 0 + prices.getD (count / 2) 0) / 2
  else prices.getD (count / 2) 0

/-- One pass of the reputation-scoring loop of `_calculateConsensus`:
score the submitter of entry `d` against the new consensus `median`. -/
def scoreStep (median : Nat) (st : OracleState) (d : PriceData) : OracleState :=
  { st with reps := fun a =>
      if a = d.submitter then
        updateReputation (st.reps a) (decide (calculateDeviation d.price median ≤ ACCURACY_THRESHOLD_BPS))
      else st.reps a }

/-- The median `_calculateConsensus` computes for a feed: insertion-sort
the window's prices and take the middle (or floor-averaged middle pair). -/
def consensusMedian (feed : PriceFeed) : Nat :=
  medianOf (insertionSort (feed.submissions.map (fun d => d.price)))
    feed.submissions.length

/-- `AgentOracle._calculateConsensus`: store the median of the window as
the new consensus, then score every submitter in the window.  The window's
`submissions`/`submissionCount` are left untouched. -/
def calculateConsensus (s : OracleState) (pair : Nat) : OracleState :=
  if (s.feeds pair).submissions.length = 0 then s
  else
    (s.feeds pair).submissions.foldl (scoreStep (consensusMedian (s.feeds pair)))
      { s with feeds := fun q =>
          if q = pair then
            { s.feeds pair with consensusPrice := consensusMedian (s.feeds pair) }
          else s.feeds q }

/-- New-pair initialization of `submitPrice`: a feed with `pair == bytes32(0)`
gets its `pair` field stamped. -/
def initFeed (feed : PriceFeed) (pair : Nat) : PriceFeed :=
  if feed.pair = 0 then { feed with pair := pair } else feed

/-- Lazy window reset of `submitPrice`: clear the submissions if the window
expired since `lastUpdate`. -/
def resetIfExpired (feed : PriceFeed) (now : Nat) : PriceFeed :=
  if feed.lastUpdate + SUBMISSION_WINDOW < now then
    { feed with submissions := [], submissionCount := 0 }
  else feed

/-- Recording a submission in a feed: push the entry, bump the counter and
refresh `lastUpdate`. -/
def recordSubmission (feed : PriceFeed) (price now sender : Nat) : PriceFeed :=
  { feed with
      submissions := feed.submissions ++ [⟨price, now, sender⟩]
      submissionCount := feed.submissionCount + 1
      lastUpdate := now }

/-- The state `submitPrice` writes on its success path, before any
consensus computation: the pair's feed is initialized, lazily reset and
extended with the new submission, the sender's `totalSubmissions` and
`lastSubmission` are bumped, and a new pair is appended to `activePairs`. -/
def recordedState (s : OracleState) (sender pair price now : Nat) : OracleState :=
  { s with
      feeds := fun q =>
        if q = pair then
          recordSubmission (resetIfExpired (initFeed (s.feeds pair) pair) now) price now sender
        else s.feeds q
      reps := fun a =>
        if a = sender then
          { s.reps sender with
              totalSubmissions := (s.reps sender).totalSubmissions + 1
              lastSubmission := now }
        else s.reps a
      activePairs :=
        if (s.feeds pair).pair = 0 then s.activePairs ++ [pair] else s.activePairs }

/-- `AgentOracle.submitPrice`.  The source's failure paths `revert`, so the
embedding returns only an error token: in particular, on the
excessive-deviation path the source emits `PriceRejected` and calls
`_updateReputation(msg.sender, false)` *before* reverting, and the revert
rolls those effects back, so the embedding's error carries no state change. -/
def submitPrice (s : OracleState) (sender pair price now : Nat) :
    Except OracleErr OracleState :=
  if s.paused then .error .whenPaused
  else if s.validAgent sender = false then .error .notValidAgent
  else if price = 0 then .error .invalidPrice
  else if (s.reps sender).isBanned then .error .agentBanned
  else if 0 < (initFeed (s.feeds pair) pair).consensusPrice ∧
      MAX_DEVIATION_BPS <
        calculateDeviation price (initFeed (s.feeds pair) pair).consensusPrice then
    .error .excessiveDeviation
  else if (resetIfExpired (initFeed (s.feeds pair) pair) now).submissions.any
      (fun d => d.submitter = sender) then
    .error .alreadySubmitted
  else if MIN_SUBMISSIONS ≤
      ((recordedState s sender pair price now).feeds pair).submissionCount then
    .ok (calculateConsensus (recordedState s sender pair price now) pair)
  else .ok (recordedState s sender pair price now)

/-- Concrete oracle state for C6: pair `7` has consensus `100`, agent `1`
is registered with 20 lifetime submissions, 5 accurate, not banned. -/
def oracleCex6 : OracleState :=
  { feeds := fun q => if q = 7 then ⟨7, 100, 1, 0, []⟩ else ⟨0, 0, 0, 0, []⟩
    reps := fun a => if a = 1 then ⟨20, 5, 0, false⟩ else ⟨0, 0, 0, false⟩
    validAgent := fun a => decide (a = 1)
    activePairs := [7]
    paused := false }

/-- Concrete oracle state for the C7 witness: agent `1` is banned. -/
def oracleWit7 : OracleState :=
  { feeds := fun _ => ⟨0, 0, 0, 0, []⟩
    reps := fun a => if a = 1 then ⟨20, 5, 0, true⟩ else ⟨0, 0, 0, false⟩
    validAgent := fun _ => true
    activePairs := []
    paused := false }

/-- Concrete oracle state for the C7 witness: bystander agent `2` is
banned while agent `1` submits. -/
def oracleWit7b : OracleState :=
  { feeds := fun _ => ⟨0, 0, 0, 0, []⟩
    reps := fun a => if a = 2 then ⟨0, 0, 0, true⟩ else ⟨0, 0, 0, false⟩
    validAgent := fun _ => true
    activePairs := []
    paused := false }

/-- Fresh oracle state for the C8 counterexample. -/
def oracleCex8 : OracleState :=
  { feeds := fun _ => ⟨0, 0, 0, 0, []⟩
    reps := fun _ => ⟨0, 0, 0, false⟩
    validAgent := fun _ => true
    activePairs := []
    paused := false }

/-- Oracle state for the C8 witness: pair `9` holds a stale two-entry
window (`lastUpdate = 0`). -/
def oracleWit8 : OracleState :=
  { feeds := fun q => if q = 9 then ⟨9, 0, 0, 2, [⟨50, 0, 4⟩, ⟨60, 0, 5⟩]⟩ else ⟨0, 0, 0, 0, []⟩
    reps := fun a => if a = 4 then ⟨2, 1, 0, false⟩ else ⟨0, 0, 0, false⟩
    validAgent := fun _ => true
    activePairs := [9]
    paused := false }

end AgentOracle

namespace SimpleAMM

/-- One Babylonian step never undershoots the integer square root:
`Nat.sqrt y ≤ (y / x + x) / 2` for positive `x` (integer AM-GM). -/
lemma nat_sqrt_le_step (y x : Nat) (hx : 0 < x) :
    Nat.sqrt y ≤ (y / x + x) / 2 := by
  have hs : Nat.sqrt y * Nat.sqrt y ≤ y := by
    have := Nat.sqrt_le' y
    simpa [pow_two] using this
  rw [Nat.le_div_iff_mul_le (by norm_num : (0:Nat) < 2)]
  rcases le_or_lt (2 * Nat.sqrt y) x with h | h
  · have hnn : 0 ≤ y / x := Nat.zero_le _
    omega
  · have h2 : (2 * Nat.sqrt y - x) * x ≤ Nat.sqrt y * Nat.sqrt y := by
      zify [le_of_lt h]
      nlinarith [sq_nonneg ((Nat.sqrt y : Int) - x)]
    have h3 : 2 * Nat.sqrt y - x ≤ y / x :=
      (Nat.le_div_iff_mul_le hx).2 (le_trans h2 hs)
    omega

/-- The Babylonian loop, entered with an iterate `x` that is at least the
integer square root, converges to exactly `Nat.sqrt y`. -/
lemma sqrtLoop_eq_sqrt (y : Nat) (hy : 3 < y) :
    ∀ fuel x, Nat.sqrt y ≤ x → x ≤ fuel →
      sqrtLoop y fuel ((y / x + x) / 2) x = Nat.sqrt y := by
  have hs2 : 2 ≤ Nat.sqrt y := Nat.le_sqrt.2 (by omega)
  intro fuel
  induction fuel with
  | zero => intro x hsx hxf; omega
  | succ fuel ih =>
    intro x hsx hxf
    have hx0 : 0 < x := by omega
    show (if (y / x + x) / 2 < x then
        sqrtLoop y fuel ((y / ((y / x + x) / 2) + (y / x + x) / 2) / 2) ((y / x + x) / 2)
      else x) = Nat.sqrt y
    by_cases hlt : (y / x + x) / 2 < x
    · rw [if_pos hlt]
      exact ih ((y / x + x) / 2) (nat_sqrt_le_step y x hx0) (by omega)
    · rw [if_neg hlt]
      push_neg at hlt
      have h1 : x * 2 ≤ y / x + x :=
        (Nat.le_div_iff_mul_le (by norm_num : (0:Nat) < 2)).1 hlt
      have h2 : x ≤ y / x := by omega
      have h3 : x * x ≤ y := (Nat.le_div_iff_mul_le hx0).1 h2
      have h4 : x ≤ Nat.sqrt y := Nat.le_sqrt.2 h3
      omega

/-- `SimpleAMM.sqrt` computes the integer square root. -/
lemma sqrt_eq_nat_sqrt (y : Nat) : sqrt y = Nat.sqrt y := by
  by_cases hy : 3 < y
  · have hs2 : 2 ≤ Nat.sqrt y := Nat.le_sqrt.2 (by omega)
    have hsy : Nat.sqrt y * Nat.sqrt y ≤ y := by
      have := Nat.sqrt_le' y
      simpa [pow_two] using this
    have hhalf : Nat.sqrt y ≤ y / 2 + 1 := by
      have : Nat.sqrt y ≤ y / 2 :=
        (Nat.le_div_iff_mul_le (by norm_num : (0:Nat) < 2)).2 (by nlinarith)
      omega
    obtain ⟨f, rfl⟩ : ∃ f, y = f + 1 := ⟨y - 1, by omega⟩
    rw [sqrt, if_pos hy]
    show (if (f + 1) / 2 + 1 < f + 1 then
        sqrtLoop (f + 1) f
          (((f + 1) / ((f + 1) / 2 + 1) + ((f + 1) / 2 + 1)) / 2) ((f + 1) / 2 + 1)
      else f + 1) = Nat.sqrt (f + 1)
    rw [if_pos (by omega)]
    exact sqrtLoop_eq_sqrt (f + 1) hy f ((f + 1) / 2 + 1) hhalf (by omega)
  · rw [sqrt, if_neg hy]
    interval_cases y
    · rfl
    · show (1:Nat) = Nat.sqrt 1
      exact Nat.eq_sqrt.2 (by norm_num)
    · show (1:Nat) = Nat.sqrt 2
      exact Nat.eq_sqrt.2 (by norm_num)
    · show (1:Nat) = Nat.sqrt 3
      exact Nat.eq_sqrt.2 (by norm_num)

/-- `swap` with a positive amount and a recognized input token, rewritten as
a case split on the quote `getAmountOut` (the `amountOut` local of the
source). -/
lemma swap_unfold (p : Pool) (tokenIn amountIn minAmountOut : Nat)
    (hnz : amountIn ≠ 0) (htok : tokenIn = p.tokenA ∨ tokenIn = p.tokenB) :
    swap p tokenIn amountIn minAmountOut =
      if getAmountOut p tokenIn amountIn < minAmountOut then .error .slippageExceeded
      else if reserveOutOf p tokenIn ≤ getAmountOut p tokenIn amountIn then
        .error .insufficientLiquidity
      else if tokenIn = p.tokenA then
        .ok ({ p with
                reserveA := p.reserveA + amountIn
                reserveB := p.reserveB - getAmountOut p tokenIn amountIn
                totalFeesA := p.totalFeesA + amountIn * FEE_NUMERATOR / FEE_DENOMINATOR },
          getAmountOut p tokenIn amountIn)
      else
        .ok ({ p with
                reserveB := p.reserveB + amountIn
                reserveA := p.reserveA - getAmountOut p tokenIn amountIn
                totalFeesB := p.totalFeesB + amountIn * FEE_NUMERATOR / FEE_DENOMINATOR },
          getAmountOut p tokenIn amountIn) := by
  have h2 : ¬(tokenIn ≠ p.tokenA ∧ tokenIn ≠ p.tokenB) := by tauto
  rw [swap, if_neg hnz, if_neg h2]
  rfl

/-- A successful swap strictly grows the invariant: with `out` the floor
quote for input `x` against reserves `(rIn, rOut)` and `out < rOut`, the
post-trade product exceeds the pre-trade product. -/
lemma swap_product_step (rIn rOut x out : Nat) (hx : 0 < x) (hout : out < rOut)
    (hdiv : out = x * (FEE_DENOMINATOR - FEE_NUMERATOR) * rOut /
      (rIn * FEE_DENOMINATOR + x * (FEE_DENOMINATOR - FEE_NUMERATOR))) :
    rIn * rOut < (rIn + x) * (rOut - out) := by
  simp only [FEE_DENOMINATOR, FEE_NUMERATOR] at hdiv
  have hrIn : 0 < rIn := by
    rcases Nat.eq_zero_or_pos rIn with h0 | h
    · exfalso
      rw [h0] at hdiv
      simp only [Nat.zero_mul, Nat.zero_add] at hdiv
      have hx997 : 0 < x * (1000 - 3) := by positivity
      rw [Nat.mul_div_cancel_left rOut hx997] at hdiv
      omega
    · exact h
  have hmul : out * (rIn * 1000 + x * 997) ≤ x * 997 * rOut := by
    have := Nat.div_mul_le_self (x * (1000 - 3) * rOut) (rIn * 1000 + x * (1000 - 3))
    rw [← hdiv] at this
    calc out * (rIn * 1000 + x * 997) = out * (rIn * 1000 + x * (1000 - 3)) := by norm_num
      _ ≤ x * (1000 - 3) * rOut := this
      _ = x * 997 * rOut := by norm_num
  have key : out * (rIn + x) < x * rOut := by
    rcases Nat.eq_zero_or_pos out with h0 | hpos
    · rw [h0, Nat.zero_mul]
      exact Nat.mul_pos hx (by omega)
    · have h1 : 0 < out * rIn := Nat.mul_pos hpos hrIn
      nlinarith [hmul, h1]
  obtain ⟨d, rfl⟩ : ∃ d, rOut = out + d := ⟨rOut - out, by omega⟩
  rw [Nat.add_sub_cancel_left]
  have goal1 : rIn * out < x * d := by nlinarith [key]
  calc rIn * (out + d) = rIn * out + rIn * d := by ring
    _ < x * d + rIn * d := by linarith [goal1]
    _ = (rIn + x) * d := by ring

/-- Claim C1 (amended): with a positive input amount and a recognized input
token, the swap output equals the constant-product quote
`amountIn * (FEE_DENOMINATOR - FEE_NUMERATOR) * reserveOut /
(reserveIn * FEE_DENOMINATOR + amountIn * (FEE_DENOMINATOR - FEE_NUMERATOR))`
(floor division, fee constants `3` / `1000`); the call fails with
`slippageExceeded` exactly when the quote is below `minAmountOut`, and it
fails with `insufficientLiquidity` exactly when the quote is at least
`minAmountOut` and at least `reserveOut` (the slippage check runs first, so
when both failure conditions hold the error is `slippageExceeded`). -/
theorem swap_quote_and_errors (p : Pool) (tokenIn amountIn minAmountOut : Nat)
    (hpos : 0 < amountIn) (htok : tokenIn = p.tokenA ∨ tokenIn = p.tokenB) :
    getAmountOut p tokenIn amountIn =
      amountIn * (FEE_DENOMINATOR - FEE_NUMERATOR) * reserveOutOf p tokenIn /
        (reserveInOf p tokenIn * FEE_DENOMINATOR +
          amountIn * (FEE_DENOMINATOR - FEE_NUMERATOR)) ∧
    (exErr (swap p tokenIn amountIn minAmountOut) = some .slippageExceeded ↔
      getAmountOut p tokenIn amountIn < minAmountOut) ∧
    (exErr (swap p tokenIn amountIn minAmountOut) = some .insufficientLiquidity ↔
      (minAmountOut ≤ getAmountOut p tokenIn amountIn ∧
        reserveOutOf p tokenIn ≤ getAmountOut p tokenIn amountIn)) ∧
    (minAmountOut ≤ getAmountOut p tokenIn amountIn →
      getAmountOut p tokenIn amountIn < reserveOutOf p tokenIn →
      (swap p tokenIn amountIn minAmountOut).toOption.map (fun r => r.2) =
        some (getAmountOut p tokenIn amountIn)) := by
  rw [swap_unfold p tokenIn amountIn minAmountOut (by omega) htok]
  refine ⟨rfl, ?_, ?_, ?_⟩
  · split_ifs with h1 h2 h3 <;> simp [exErr] <;> omega
  · split_ifs with h1 h2 h3 <;> simp [exErr] <;> omega
  · intro hmin hres
    split_ifs with h1 h2 h3 <;> simp [Except.toOption] <;> omega

/-- Claim C2 (amended): a successful `swap` strictly increases the
input-side reserve by `amountIn`, decreases the output-side reserve by
`amountOut` (strictly exactly when `amountOut > 0`; a zero-output swap can
succeed and leaves it unchanged), and strictly increases the product
`reserveA * reserveB`. -/
theorem swap_reserves_product (p p' : Pool) (tokenIn amountIn minAmountOut amountOut : Nat)
    (h : swap p tokenIn amountIn minAmountOut = .ok (p', amountOut)) :
    reserveInOf p' tokenIn = reserveInOf p tokenIn + amountIn ∧
    reserveInOf p tokenIn < reserveInOf p' tokenIn ∧
    reserveOutOf p' tokenIn = reserveOutOf p tokenIn - amountOut ∧
    reserveOutOf p' tokenIn ≤ reserveOutOf p tokenIn ∧
    (0 < amountOut ↔ reserveOutOf p' tokenIn < reserveOutOf p tokenIn) ∧
    p.reserveA * p.reserveB < p'.reserveA * p'.reserveB := by
  have hnz : ¬ amountIn = 0 := by
    intro h0
    rw [swap, if_pos h0] at h
    exact absurd h (by simp)
  have htok : tokenIn = p.tokenA ∨ tokenIn = p.tokenB := by
    by_contra hc
    push_neg at hc
    rw [swap, if_neg hnz, if_pos hc] at h
    exact absurd h (by simp)
  rw [swap_unfold p tokenIn amountIn minAmountOut hnz htok] at h
  by_cases h1 : getAmountOut p tokenIn amountIn < minAmountOut
  · rw [if_pos h1] at h
    exact absurd h (by simp)
  rw [if_neg h1] at h
  by_cases h2 : reserveOutOf p tokenIn ≤ getAmountOut p tokenIn amountIn
  · rw [if_pos h2] at h
    exact absurd h (by simp)
  rw [if_neg h2] at h
  by_cases h3 : tokenIn = p.tokenA
  · -- tokenIn = tokenA, success
    subst h3
    rw [if_pos rfl] at h
    simp only [Except.ok.injEq, Prod.mk.injEq] at h
    obtain ⟨hp, hout⟩ := h
    subst hp
    subst hout
    have hq : getAmountOut p p.tokenA amountIn =
        amountIn * (FEE_DENOMINATOR - FEE_NUMERATOR) * p.reserveB /
          (p.reserveA * FEE_DENOMINATOR + amountIn * (FEE_DENOMINATOR - FEE_NUMERATOR)) := by
      rw [getAmountOut, reserveInOf, reserveOutOf, if_pos rfl, if_pos rfl]
    have hlt : getAmountOut p p.tokenA amountIn < p.reserveB := by
      rw [reserveOutOf, if_pos rfl] at h2
      omega
    refine ⟨by simp [reserveInOf] <;> omega, by simp [reserveInOf] <;> omega,
      by simp [reserveOutOf] <;> omega, by simp [reserveOutOf] <;> omega,
      by simp [reserveOutOf] <;> omega, ?_⟩
    show p.reserveA * p.reserveB <
      (p.reserveA + amountIn) * (p.reserveB - getAmountOut p p.tokenA amountIn)
    exact swap_product_step p.reserveA p.reserveB amountIn _ (by omega) hlt hq
  · -- tokenIn = tokenB, success
    have hB : tokenIn = p.tokenB := htok.resolve_left h3
    subst hB
    rw [if_neg h3] at h
    simp only [Except.ok.injEq, Prod.mk.injEq] at h
    obtain ⟨hp, hout⟩ := h
    subst hp
    subst hout
    have hq : getAmountOut p p.tokenB amountIn =
        amountIn * (FEE_DENOMINATOR - FEE_NUMERATOR) * p.reserveA /
          (p.reserveB * FEE_DENOMINATOR + amountIn * (FEE_DENOMINATOR - FEE_NUMERATOR)) := by
      rw [getAmountOut, reserveInOf, reserveOutOf, if_neg h3, if_neg h3]
    have hlt : getAmountOut p p.tokenB amountIn < p.reserveA := by
      rw [reserveOutOf, if_neg h3] at h2
      omega
    refine ⟨by simp [reserveInOf, h3] <;> omega, by simp [reserveInOf, h3] <;> omega,
      by simp [reserveOutOf, h3] <;> omega, by simp [reserveOutOf, h3] <;> omega,
      by simp [reserveOutOf, h3] <;> omega, ?_⟩
    show p.reserveA * p.reserveB <
      (p.reserveA - getAmountOut p p.tokenB amountIn) * (p.reserveB + amountIn)
    have hstep := swap_product_step p.reserveB p.reserveA amountIn
      (getAmountOut p p.tokenB amountIn) (by omega) hlt hq
    calc p.reserveA * p.reserveB = p.reserveB * p.reserveA := by ring
      _ < (p.reserveB + amountIn) * (p.reserveA - getAmountOut p p.tokenB amountIn) := hstep
      _ = (p.reserveA - getAmountOut p p.tokenB amountIn) * (p.reserveB + amountIn) := by ring

/-- `addLiquidity` with its local `liquidity` expanded and the source's
Babylonian `sqrt` replaced by `Nat.sqrt` (they agree by `sqrt_eq_nat_sqrt`). -/
lemma addLiquidity_unfold (p : Pool) (u a b : Nat) :
    addLiquidity p u a b =
      if a = 0 ∨ b = 0 then .error .amountsNotPositive
      else if (if p.totalShares = 0 then Nat.sqrt (a * b)
          else min (a * p.totalShares / p.reserveA) (b * p.totalShares / p.reserveB)) = 0
        then .error .insufficientLiquidityMinted
      else
        .ok ({ p with
                totalShares := p.totalShares +
                  (if p.totalShares = 0 then Nat.sqrt (a * b)
                   else min (a * p.totalShares / p.reserveA) (b * p.totalShares / p.reserveB))
                shares := fun x => if x = u then p.shares x +
                  (if p.totalShares = 0 then Nat.sqrt (a * b)
                   else min (a * p.totalShares / p.reserveA) (b * p.totalShares / p.reserveB))
                  else p.shares x
                reserveA := p.reserveA + a
                reserveB := p.reserveB + b },
          if p.totalShares = 0 then Nat.sqrt (a * b)
          else min (a * p.totalShares / p.reserveA) (b * p.totalShares / p.reserveB)) := by
  rw [addLiquidity, sqrt_eq_nat_sqrt]

/-- `removeLiquidity` with its local `amountA`/`amountB` expanded. -/
lemma removeLiquidity_unfold (p : Pool) (u L : Nat) :
    removeLiquidity p u L =
      if L = 0 then .error .liquidityNotPositive
      else if p.shares u < L then .error .insufficientLPTokens
      else if L * p.reserveA / p.totalShares = 0 ∨ L * p.reserveB / p.totalShares = 0 then
        .error .insufficientLiquidityBurned
      else
        .ok ({ p with
                totalShares := p.totalShares - L
                shares := fun x => if x = u then p.shares x - L else p.shares x
                reserveA := p.reserveA - L * p.reserveA / p.totalShares
                reserveB := p.reserveB - L * p.reserveB / p.totalShares },
          L * p.reserveA / p.totalShares, L * p.reserveB / p.totalShares) := by
  rw [removeLiquidity]

/-- Claim C3: with both deposit amounts positive (and, when shares already
exist, positive reserves — unreachable zero-reserve states would make the
EVM division panic), `addLiquidity` mints exactly `Nat.sqrt (amountA * amountB)`
shares on first provision and
`min (amountA  * totalShares / reserveA, amountB * totalShares / reserveB)`
afterwards, fails with `insufficientLiquidityMinted` exactly when that
number is `0`, and on success grows both reserves by the deposits. -/
theorem addLiquidity_shares_spec (p : Pool) (u a b : Nat) (ha : 0 < a) (hb : 0 < b)
    (hwf : p.totalShares ≠ 0 → 0 < p.reserveA ∧ 0 < p.reserveB) :
    (exErr (addLiquidity p u a b) = some .insufficientLiquidityMinted ↔
      (if p.totalShares = 0 then Nat.sqrt (a * b)
       else min (a * p.totalShares / p.reserveA) (b * p.totalShares / p.reserveB)) = 0) ∧
    ((addLiquidity p u a b).toOption.map (fun r => (r.1.reserveA, r.1.reserveB, r.2)) =
      if (if p.totalShares = 0 then Nat.sqrt (a * b)
          else min (a * p.totalShares / p.reserveA) (b * p.totalShares / p.reserveB)) = 0
      then none
      else some (p.reserveA + a, p.reserveB + b,
        if p.totalShares = 0 then Nat.sqrt (a * b)
        else min (a * p.totalShares / p.reserveA) (b * p.totalShares / p.reserveB))) := by
  have h0 : ¬(a = 0 ∨ b = 0) := by omega
  rw [addLiquidity_unfold, if_neg h0]
  set L := if p.totalShares = 0 then Nat.sqrt (a * b)
    else min (a * p.totalShares / p.reserveA) (b * p.totalShares / p.reserveB) with hLdef
  by_cases hL0 : L = 0
  · rw [if_pos hL0]
    simp [exErr, hL0, Except.toOption]
  · rw [if_neg hL0]
    simp [exErr, hL0, Except.toOption]

/-- If `L * A ≤ a * T` then `L * (A + a) ≤ a * (T + L)` (rebalancing used by
the round-trip bound). -/
lemma mul_rebalance (L A a T : Nat) (h : L * A ≤ a * T) :
    L * (A + a) ≤ a * (T + L) := by
  calc L * (A + a) = L * A + a * L := by ring
    _ ≤ a * T + a * L := Nat.add_le_add_right h _
    _ = a * (T + L) := by ring

/-- Claim C9 (amended): on a well-formed pool (zero reserves whenever no
shares are outstanding), a successful `addLiquidity(a, b)` followed by a
successful `removeLiquidity` of the minted shares by the same holder
returns amounts bounded by the deposits, and the reserves never underflow:
the withdrawn amounts are bounded by the post-deposit reserves and the new
reserves are exactly the old ones minus the withdrawals. -/
theorem roundtrip_bounded (p p1 p2 : Pool) (u a b s aOut bOut : Nat)
    (ha : 0 < a) (hb : 0 < b)
    (hwf : p.totalShares = 0 → p.reserveA = 0 ∧ p.reserveB = 0)
    (hadd : addLiquidity p u a b = .ok (p1, s))
    (hrem : removeLiquidity p1 u s = .ok (p2, aOut, bOut)) :
    aOut ≤ a ∧ bOut ≤ b ∧ aOut ≤ p1.reserveA ∧ bOut ≤ p1.reserveB ∧
    p2.reserveA = p1.reserveA - aOut ∧ p2.reserveB = p1.reserveB - bOut := by
  have h0 : ¬(a = 0 ∨ b = 0) := by omega
  rw [addLiquidity_unfold, if_neg h0] at hadd
  set L := if p.totalShares = 0 then Nat.sqrt (a * b)
    else min (a * p.totalShares / p.reserveA) (b * p.totalShares / p.reserveB) with hLdef
  by_cases hL0 : L = 0
  · rw [if_pos hL0] at hadd
    exact absurd hadd (by simp)
  rw [if_neg hL0] at hadd
  simp only [Except.ok.injEq, Prod.mk.injEq] at hadd
  obtain ⟨hp1, hs⟩ := hadd
  have e1 : p1.reserveA = p.reserveA + a := by rw [← hp1]
  have e2 : p1.reserveB = p.reserveB + b := by rw [← hp1]
  have e3 : p1.totalShares = p.totalShares + L := by rw [← hp1]
  have e4 : p1.shares u = p.shares u + L := by rw [← hp1]; simp
  subst hs
  rw [removeLiquidity_unfold, if_neg hL0] at hrem
  have hble : ¬ (p1.shares u < L) := by omega
  rw [if_neg hble] at hrem
  by_cases hz : L * p1.reserveA / p1.totalShares = 0 ∨ L * p1.reserveB / p1.totalShares = 0
  · rw [if_pos hz] at hrem
    exact absurd hrem (by simp)
  rw [if_neg hz] at hrem
  simp only [Except.ok.injEq, Prod.mk.injEq] at hrem
  obtain ⟨hp2, hA, hB⟩ := hrem
  have hTs : 0 < p.totalShares + L := by omega
  have keyA : L * p1.reserveA ≤ a * (p.totalShares + L) := by
    by_cases hT : p.totalShares = 0
    · obtain ⟨hA0, _⟩ := hwf hT
      rw [e1, hA0, hT]
      exact mul_rebalance L 0 a 0 (by simp)
    · have hApos : 0 < p.reserveA := by
        by_contra hA0
        push_neg at hA0
        have hA0' : p.reserveA = 0 := by omega
        apply hL0
        rw [hLdef, if_neg hT, hA0']
        simp
      have hsle : L ≤ a * p.totalShares / p.reserveA := by
        rw [hLdef, if_neg hT]
        exact min_le_left _ _
      have hsA : L * p.reserveA ≤ a * p.totalShares :=
        (Nat.le_div_iff_mul_le hApos).1 hsle
      rw [e1]
      exact mul_rebalance L p.reserveA a p.totalShares hsA
  have keyB : L * p1.reserveB ≤ b * (p.totalShares + L) := by
    by_cases hT : p.totalShares = 0
    · obtain ⟨_, hB0⟩ := hwf hT
      rw [e2, hB0, hT]
      exact mul_rebalance L 0 b 0 (by simp)
    · have hBpos : 0 < p.reserveB := by
        by_contra hB0
        push_neg at hB0
        have hB0' : p.reserveB = 0 := by omega
        apply hL0
        rw [hLdef, if_neg hT, hB0']
        simp
      have hsle : L ≤ b * p.totalShares / p.reserveB := by
        rw [hLdef, if_neg hT]
        exact min_le_right _ _
      have hsB : L * p.reserveB ≤ b * p.totalShares :=
        (Nat.le_div_iff_mul_le hBpos).1 hsle
      rw [e2]
      exact mul_rebalance L p.reserveB b p.totalShares hsB
  have haOut : aOut ≤ a := by
    rw [← hA, e3]
    calc L * p1.reserveA / (p.totalShares + L)
        ≤ a * (p.totalShares + L) / (p.totalShares + L) := Nat.div_le_div_right keyA
      _ = a := Nat.mul_div_cancel a hTs
  have hbOut : bOut ≤ b := by
    rw [← hB, e3]
    calc L * p1.reserveB / (p.totalShares + L)
        ≤ b * (p.totalShares + L) / (p.totalShares + L) := Nat.div_le_div_right keyB
      _ = b := Nat.mul_div_cancel b hTs
  have haRes : aOut ≤ p1.reserveA := by
    rw [← hA, e3]
    have h2 : (L * p1.reserveA / (p.totalShares + L)) * (p.totalShares + L) ≤
        L * p1.reserveA := Nat.div_mul_le_self _ _
    have h3 : L * p1.reserveA ≤ p1.reserveA * (p.totalShares + L) := by
      calc L * p1.reserveA = p1.reserveA * L := by ring
        _ ≤ p1.reserveA * (p.totalShares + L) := Nat.mul_le_mul_left _ (by omega)
    exact Nat.le_of_mul_le_mul_right (le_trans h2 h3) hTs
  have hbRes : bOut ≤ p1.reserveB := by
    rw [← hB, e3]
    have h2 : (L * p1.reserveB / (p.totalShares + L)) * (p.totalShares + L) ≤
        L * p1.reserveB := Nat.div_mul_le_self _ _
    have h3 : L * p1.reserveB ≤ p1.reserveB * (p.totalShares + L) := by
      calc L * p1.reserveB = p1.reserveB * L := by ring
        _ ≤ p1.reserveB * (p.totalShares + L) := Nat.mul_le_mul_left _ (by omega)
    exact Nat.le_of_mul_le_mul_right (le_trans h2 h3) hTs
  have f1 : p2.reserveA = p1.reserveA - aOut := by
    rw [← hp2, ← hA]
  have f2 : p2.reserveB = p1.reserveB - bOut := by
    rw [← hp2, ← hB]
  exact ⟨haOut, hbOut, haRes, hbRes, f1, f2⟩

/-- Claim C10: for a `tokenIn` that is neither pool token (with distinct
pool tokens and a positive amount), the view `getAmountOut` does not fail
and quotes with `(reserveIn, reserveOut) = (reserveB, reserveA)` — exactly
the quote for selling `tokenB` — while `swap` rejects the same `tokenIn`
with `invalidToken`. -/
theorem getAmountOut_unknown_token (p : Pool) (tokenIn amountIn minAmountOut : Nat)
    (hA : tokenIn ≠ p.tokenA) (hB : tokenIn ≠ p.tokenB) (hpos : 0 < amountIn)
    (hd : p.tokenA ≠ p.tokenB) :
    getAmountOut p tokenIn amountIn =
      amountIn * (FEE_DENOMINATOR - FEE_NUMERATOR) * p.reserveA /
        (p.reserveB * FEE_DENOMINATOR + amountIn * (FEE_DENOMINATOR - FEE_NUMERATOR)) ∧
    getAmountOut p tokenIn amountIn = getAmountOut p p.tokenB amountIn ∧
    swap p tokenIn amountIn minAmountOut = .error .invalidToken := by
  refine ⟨?_, ?_, ?_⟩
  · rw [getAmountOut, reserveInOf, reserveOutOf, if_neg hA, if_neg hA]
  · rw [getAmountOut, getAmountOut, reserveInOf, reserveOutOf, if_neg hA, if_neg hA,
      reserveInOf, reserveOutOf, if_neg (Ne.symm hd), if_neg (Ne.symm hd)]
  · rw [swap, if_neg (by omega), if_pos ⟨hA, hB⟩]

/-- Claim C1 counterexample: on the pool with `reserveIn = 1, reserveOut = 0`,
the call `swap(tokenA, 1, 1)` has quote `0 ≥ reserveOut`, so the claim
demands an `insufficientLiquidity` failure, but the code checks slippage
first and fails with `slippageExceeded`. -/
theorem swap_error_priority_cex :
    exErr (swap poolCex1 1 1 1) = some AmmErr.slippageExceeded ∧
    reserveOutOf poolCex1 1 ≤ getAmountOut poolCex1 1 1 := by
  exact ⟨rfl, by decide⟩

/-- Witness for `swap_quote_and_errors` on the pool `(1000, 1000)` with
`amountIn = 10`, `minAmountOut = 0` (quote `9`). -/
theorem swap_quote_and_errors_witness :
    getAmountOut poolWit1 1 10 =
      10 * (FEE_DENOMINATOR - FEE_NUMERATOR) * reserveOutOf poolWit1 1 /
        (reserveInOf poolWit1 1 * FEE_DENOMINATOR +
          10 * (FEE_DENOMINATOR - FEE_NUMERATOR)) ∧
    (exErr (swap poolWit1 1 10 0) = some .slippageExceeded ↔
      getAmountOut poolWit1 1 10 < 0) ∧
    (exErr (swap poolWit1 1 10 0) = some .insufficientLiquidity ↔
      (0 ≤ getAmountOut poolWit1 1 10 ∧
        reserveOutOf poolWit1 1 ≤ getAmountOut poolWit1 1 10)) ∧
    (0 ≤ getAmountOut poolWit1 1 10 →
      getAmountOut poolWit1 1 10 < reserveOutOf poolWit1 1 →
      (swap poolWit1 1 10 0).toOption.map (fun r => r.2) =
        some (getAmountOut poolWit1 1 10)) :=
  swap_quote_and_errors poolWit1 1 10 0 (by decide) (Or.inl rfl)

/-- Claim C2 counterexample: on the pool `(1000, 1)`, `swap(tokenA, 1, 0)`
succeeds with `amountOut = 0`, and the output-side reserve `reserveB`
stays `1` — it does not strictly decrease. -/
theorem swap_zero_output_cex :
    swap poolCex2 1 1 0 = .ok (⟨1, 2, 1001, 1, 0, fun _ => 0, 0, 0⟩, 0) ∧
    poolCex2.reserveB = 1 := by
  exact ⟨rfl, rfl⟩

/-- Witness for `swap_reserves_product` on the pool `(1000, 1000)` with
`amountIn = 10` (output `9`). -/
theorem swap_reserves_product_witness :
    reserveInOf poolWit2End 1 = reserveInOf poolWit2 1 + 10 ∧
    reserveInOf poolWit2 1 < reserveInOf poolWit2End 1 ∧
    reserveOutOf poolWit2End 1 = reserveOutOf poolWit2 1 - 9 ∧
    reserveOutOf poolWit2End 1 ≤ reserveOutOf poolWit2 1 ∧
    (0 < 9 ↔ reserveOutOf poolWit2End 1 < reserveOutOf poolWit2 1) ∧
    poolWit2.reserveA * poolWit2.reserveB < poolWit2End.reserveA * poolWit2End.reserveB :=
  swap_reserves_product poolWit2 poolWit2End 1 10 0 9 rfl

/-- Witness for `addLiquidity_shares_spec` on a fresh pool with deposits
`(4, 9)`: `Nat.sqrt 36 = 6` shares are minted and the reserves become
`(4, 9)`. -/
theorem addLiquidity_shares_spec_witness :
    (exErr (addLiquidity poolWit3 9 4 9) = some .insufficientLiquidityMinted ↔
      (if poolWit3.totalShares = 0 then Nat.sqrt (4 * 9)
       else min (4 * poolWit3.totalShares / poolWit3.reserveA)
         (9 * poolWit3.totalShares / poolWit3.reserveB)) = 0) ∧
    ((addLiquidity poolWit3 9 4 9).toOption.map (fun r => (r.1.reserveA, r.1.reserveB, r.2)) =
      if (if poolWit3.totalShares = 0 then Nat.sqrt (4 * 9)
          else min (4 * poolWit3.totalShares / poolWit3.reserveA)
            (9 * poolWit3.totalShares / poolWit3.reserveB)) = 0
      then none
      else some (poolWit3.reserveA + 4, poolWit3.reserveB + 9,
        if poolWit3.totalShares = 0 then Nat.sqrt (4 * 9)
        else min (4 * poolWit3.totalShares / poolWit3.reserveA)
          (9 * poolWit3.totalShares / poolWit3.reserveB))) :=
  addLiquidity_shares_spec poolWit3 9 4 9 (by decide) (by decide) (by decide)

/-- Claim C9 counterexample: on the degenerate pool with reserves `(5, 5)`
and zero outstanding shares, depositing `(1, 1)` mints `sqrt 1 = 1` share
and withdrawing it returns `(6, 6)` — strictly more than the deposit,
falsifying the claim over unrestricted pool states. -/
theorem roundtrip_degenerate_state_cex :
    ((addLiquidity poolCex9 9 1 1).bind (fun r => removeLiquidity r.1 9 r.2)).toOption.map
      (fun r => (r.2.1, r.2.2)) = some (6, 6) ∧
    ¬ ((6 : Nat) ≤ 1) := by
  exact ⟨rfl, by decide⟩

/-- Witness for `roundtrip_bounded`: deposit `(4, 9)` into a fresh pool
(6 shares), withdraw the 6 shares, getting back exactly `(4, 9)`. -/
theorem roundtrip_bounded_witness :
    (4 : Nat) ≤ 4 ∧ (9 : Nat) ≤ 9 ∧
    4 ≤ poolWit9Mid.reserveA ∧ 9 ≤ poolWit9Mid.reserveB ∧
    poolWit9End.reserveA = poolWit9Mid.reserveA - 4 ∧
    poolWit9End.reserveB = poolWit9Mid.reserveB - 9 :=
  roundtrip_bounded poolWit9 poolWit9Mid poolWit9End 9 4 9 6 4 9
    (by decide) (by decide) (by decide) rfl rfl

/-- Witness for `getAmountOut_unknown_token` with the unknown token `7`
against the pool `(50, 100)`. -/
theorem getAmountOut_unknown_token_witness :
    getAmountOut poolWit10 7 10 =
      10 * (FEE_DENOMINATOR - FEE_NUMERATOR) * poolWit10.reserveA /
        (poolWit10.reserveB * FEE_DENOMINATOR + 10 * (FEE_DENOMINATOR - FEE_NUMERATOR)) ∧
    getAmountOut poolWit10 7 10 = getAmountOut poolWit10 poolWit10.tokenB 10 ∧
    swap poolWit10 7 10 0 = .error .invalidToken :=
  getAmountOut_unknown_token poolWit10 7 10 0 (by decide) (by decide) (by decide) (by decide)

end SimpleAMM

namespace CreatorCoin

/-- The raw curve is non-decreasing in the supply. -/
lemma calculatedPrice_mono (s1 s2 : Nat) (h : s1 ≤ s2) :
    calculatedPrice s1 ≤ calculatedPrice s2 := by
  rw [calculatedPrice, calculatedPrice]
  by_cases h1 : s1 = 0
  · rw [if_pos h1]
    by_cases h2 : s2 = 0
    · rw [if_pos h2]
    · rw [if_neg h2]
      exact Nat.le_add_right _ _
  · have h2 : ¬ s2 = 0 := by omega
    rw [if_neg h1, if_neg h2]
    have hd : s1 / 10 ^ 15 ≤ s2 / 10 ^ 15 := Nat.div_le_div_right h
    have hm : s1 / 10 ^ 15 * (s1 / 10 ^ 15) * GROWTH_FACTOR ≤
        s2 / 10 ^ 15 * (s2 / 10 ^ 15) * GROWTH_FACTOR :=
      Nat.mul_le_mul_right _ (Nat.mul_le_mul hd hd)
    exact Nat.add_le_add_left (Nat.div_le_div_right hm) _

/-- Claim C4: with the fixed `BASE_PRICE`/`GROWTH_FACTOR` constants and any
fixed `priceFloor`, `getCurrentPrice` is non-decreasing in the supply, and
it never returns less than `priceFloor`. -/
theorem price_monotone_and_floor (priceFloor s1 s2 : Nat) (h : s1 < s2) :
    getCurrentPrice s1 priceFloor ≤ getCurrentPrice s2 priceFloor ∧
    priceFloor ≤ getCurrentPrice s1 priceFloor ∧
    priceFloor ≤ getCurrentPrice s2 priceFloor := by
  have hmono := calculatedPrice_mono s1 s2 (le_of_lt h)
  have floorLe : ∀ s, priceFloor ≤ getCurrentPrice s priceFloor := by
    intro s
    rw [getCurrentPrice]
    split_ifs with hc
    · exact le_refl _
    · push_neg at hc
      by_cases hf : 0 < priceFloor
      · exact le_of_not_gt fun hlt => absurd (hc hf) (by omega)
      · omega
  refine ⟨?_, floorLe s1, floorLe s2⟩
  rw [getCurrentPrice, getCurrentPrice]
  split_ifs with hc1 hc2 hc2 <;> omega

/-- Claim C5 counterexample: in the state with `priceFloor = 5`, the owner
calls `setPriceFloor 3` — a strict decrease — and the call succeeds and
stores the lower floor, contradicting the claim that such a call is
rejected. -/
theorem setPriceFloor_decrease_accepted_cex :
    setPriceFloor ⟨1, 5⟩ 1 3 = .ok ⟨1, 3⟩ ∧ (3 : Nat) < 5 := by
  exact ⟨rfl, by norm_num⟩

/-- Claim C5 (amended): an authorized (`owner`) `setPriceFloor` call always
succeeds and stores the requested value, even when it is strictly below the
current floor — the contract layer does not enforce floor monotonicity
(only unauthorized callers are rejected). -/
theorem setPriceFloor_no_monotonicity (c : CoinState) (caller floor : Nat)
    (hauth : caller = c.owner) (hdec : floor < c.priceFloor) :
    setPriceFloor c caller floor = .ok { c with priceFloor := floor } := by
  rw [setPriceFloor, if_pos hauth]

/-- Witness for `setPriceFloor_no_monotonicity` at the concrete state
`owner = 1, priceFloor = 5` with the decreasing request `floor = 3`. -/
theorem setPriceFloor_no_monotonicity_witness :
    setPriceFloor ⟨1, 5⟩ 1 3 = .ok { CoinState.mk 1 5 with priceFloor := 3 } :=
  setPriceFloor_no_monotonicity ⟨1, 5⟩ 1 3 rfl (by norm_num)

/-- Witness for `price_monotone_and_floor` at floor `5` and supplies `0 < 1`. -/
theorem price_monotone_and_floor_witness :
    getCurrentPrice 0 5 ≤ getCurrentPrice 1 5 ∧
    5 ≤ getCurrentPrice 0 5 ∧ 5 ≤ getCurrentPrice 1 5 :=
  price_monotone_and_floor 5 0 1 (by decide)

end CreatorCoin

namespace AgentOracle

/-- `_updateReputation` never changes the lifetime submission total. -/
lemma updateReputation_total (rep : AgentReputation) (accurate : Bool) :
    (updateReputation rep accurate).totalSubmissions = rep.totalSubmissions := by
  cases accurate <;> simp only [updateReputation] <;> split_ifs <;> rfl

/-- `_updateReputation` never clears the ban flag. -/
lemma updateReputation_banned_mono (rep : AgentReputation) (accurate : Bool)
    (h : rep.isBanned = true) :
    (updateReputation rep accurate).isBanned = true := by
  cases accurate <;> simp only [updateReputation] <;> split_ifs <;> simpa using h

/-- The scoring fold of `_calculateConsensus` touches only reputations. -/
lemma scoreFold_feeds (median : Nat) (l : List PriceData) (st : OracleState) :
    (l.foldl (scoreStep median) st).feeds = st.feeds := by
  induction l generalizing st with
  | nil => rfl
  | cons d t ih => rw [List.foldl_cons, ih]; rfl

/-- The scoring fold preserves every agent's lifetime submission total. -/
lemma scoreFold_total (median : Nat) (l : List PriceData) (st : OracleState) (a : Nat) :
    ((l.foldl (scoreStep median) st).reps a).totalSubmissions =
      (st.reps a).totalSubmissions := by
  induction l generalizing st with
  | nil => rfl
  | cons d t ih =>
    rw [List.foldl_cons, ih]
    show ((if a = d.submitter then updateReputation (st.reps a) _ else st.reps a)).totalSubmissions =
      (st.reps a).totalSubmissions
    split_ifs with hda
    · exact updateReputation_total _ _
    · rfl

/-- The scoring fold never clears a ban flag. -/
lemma scoreFold_banned (median : Nat) (l : List PriceData) (st : OracleState) (a : Nat)
    (h : (st.reps a).isBanned = true) :
    ((l.foldl (scoreStep median) st).reps a).isBanned = true := by
  induction l generalizing st with
  | nil => exact h
  | cons d t ih =>
    rw [List.foldl_cons]
    apply ih
    show ((if a = d.submitter then updateReputation (st.reps a) _ else st.reps a)).isBanned = true
    split_ifs with hda
    · exact updateReputation_banned_mono _ _ h
    · exact h

/-- `_calculateConsensus` leaves the window's submission counter unchanged. -/
lemma calculateConsensus_count (s : OracleState) (pair : Nat) :
    ((calculateConsensus s pair).feeds pair).submissionCount =
      (s.feeds pair).submissionCount := by
  rw [calculateConsensus]
  split_ifs with h
  · rfl
  · rw [scoreFold_feeds]
    simp

/-- `_calculateConsensus` leaves every lifetime submission total unchanged. -/
lemma calculateConsensus_total (s : OracleState) (pair a : Nat) :
    ((calculateConsensus s pair).reps a).totalSubmissions =
      (s.reps a).totalSubmissions := by
  rw [calculateConsensus]
  split_ifs with h
  · rfl
  · rw [scoreFold_total]

/-- `_calculateConsensus` never clears a ban flag. -/
lemma calculateConsensus_banned (s : OracleState) (pair a : Nat)
    (h : (s.reps a).isBanned = true) :
    ((calculateConsensus s pair).reps a).isBanned = true := by
  rw [calculateConsensus]
  split_ifs with hc
  · exact h
  · exact scoreFold_banned _ _ _ _ h

/-- `initFeed` only stamps the `pair` field. -/
lemma initFeed_lastUpdate (f : PriceFeed) (pair : Nat) :
    (initFeed f pair).lastUpdate = f.lastUpdate := by
  rw [initFeed]; split_ifs <;> rfl

/-- `initFeed` preserves the stored consensus. -/
lemma initFeed_consensus (f : PriceFeed) (pair : Nat) :
    (initFeed f pair).consensusPrice = f.consensusPrice := by
  rw [initFeed]; split_ifs <;> rfl

/-- A successful `submitPrice` is the recorded state, post-composed with
`_calculateConsensus` exactly when the window reached `MIN_SUBMISSIONS`. -/
lemma submitPrice_ok_shape (s : OracleState) (sender pair price now : Nat)
    (s' : OracleState) (h : submitPrice s sender pair price now = .ok s') :
    (MIN_SUBMISSIONS ≤ ((recordedState s sender pair price now).feeds pair).submissionCount ∧
      s' = calculateConsensus (recordedState s sender pair price now) pair) ∨
    (¬ MIN_SUBMISSIONS ≤ ((recordedState s sender pair price now).feeds pair).submissionCount ∧
      s' = recordedState s sender pair price now) := by
  rw [submitPrice] at h
  by_cases c1 : s.paused = true
  · rw [if_pos c1] at h
    exact absurd h (by simp)
  rw [if_neg c1] at h
  by_cases c2 : s.validAgent sender = false
  · rw [if_pos c2] at h
    exact absurd h (by simp)
  rw [if_neg c2] at h
  by_cases c3 : price = 0
  · rw [if_pos c3] at h
    exact absurd h (by simp)
  rw [if_neg c3] at h
  by_cases c4 : (s.reps sender).isBanned = true
  · rw [if_pos c4] at h
    exact absurd h (by simp)
  rw [if_neg c4] at h
  by_cases c5 : 0 < (initFeed (s.feeds pair) pair).consensusPrice ∧
      MAX_DEVIATION_BPS < calculateDeviation price (initFeed (s.feeds pair) pair).consensusPrice
  · rw [if_pos c5] at h
    exact absurd h (by simp)
  rw [if_neg c5] at h
  by_cases c6 : (resetIfExpired (initFeed (s.feeds pair) pair) now).submissions.any
      (fun d => d.submitter = sender) = true
  · rw [if_pos c6] at h
    exact absurd h (by simp)
  rw [if_neg c6] at h
  by_cases c7 : MIN_SUBMISSIONS ≤ ((recordedState s sender pair price now).feeds pair).submissionCount
  · rw [if_pos c7] at h
    simp only [Except.ok.injEq] at h
    exact Or.inl ⟨c7, h.symm⟩
  · rw [if_neg c7] at h
    simp only [Except.ok.injEq] at h
    exact Or.inr ⟨c7, h.symm⟩

/-- `recordedState` never clears a ban flag, and changes lifetime totals
only for the sender (which it bumps by one). -/
lemma recordedState_reps (s : OracleState) (sender pair price now a : Nat) :
    ((recordedState s sender pair price now).reps a).isBanned = (s.reps a).isBanned ∧
    ((recordedState s sender pair price now).reps a).accurateSubmissions =
      (s.reps a).accurateSubmissions ∧
    ((recordedState s sender pair price now).reps a).totalSubmissions =
      (s.reps a).totalSubmissions + (if a = sender then 1 else 0) := by
  rw [recordedState]
  by_cases ha : a = sender
  · subst ha
    simp
  · simp [ha]

/-- Claim C6 (amended): with a prior consensus and a submission deviating
by more than `MAX_DEVIATION_BPS = 1000` basis points
(`|price - consensus| * 10000 / consensus`), `submitPrice` fails with
`excessiveDeviation`; because the EVM rolls back the whole reverted call,
neither the submission nor the pre-revert reputation penalty persists (the
embedding's error return carries no state change). -/
theorem deviation_guard_rejects (s : OracleState) (sender pair price now : Nat)
    (hp : s.paused = false) (hv : s.validAgent sender = true) (hpr : 0 < price)
    (hb : (s.reps sender).isBanned = false)
    (hc : 0 < (s.feeds pair).consensusPrice)
    (hd : MAX_DEVIATION_BPS < calculateDeviation price (s.feeds pair).consensusPrice) :
    MAX_DEVIATION_BPS = 1000 ∧
    submitPrice s sender pair price now = .error .excessiveDeviation := by
  refine ⟨rfl, ?_⟩
  have hcond : 0 < (initFeed (s.feeds pair) pair).consensusPrice ∧
      MAX_DEVIATION_BPS <
        calculateDeviation price (initFeed (s.feeds pair) pair).consensusPrice := by
    rw [initFeed_consensus]
    exact ⟨hc, hd⟩
  rw [submitPrice, if_neg (by simp [hp]), if_neg (by simp [hv]), if_neg (by omega),
    if_neg (by simp [hb]), if_pos hcond]

/-- Claim C7: a reputation evaluation at `totalSubmissions ≥ 20` with
lifetime accuracy below 30% sets the ban flag; a banned, registered agent's
otherwise-valid `submitPrice` call fails with the banned (`Unauthorized`)
error; and no `submitPrice` call — by anyone — ever clears a ban flag, so
the ban is permanent across all submission-driven state transitions. -/
theorem ban_threshold_and_permanence :
    (∀ (rep : AgentReputation) (accurate : Bool),
      20 ≤ rep.totalSubmissions →
      (rep.accurateSubmissions + (if accurate then 1 else 0)) * 100 /
        rep.totalSubmissions < 30 →
      (updateReputation rep accurate).isBanned = true) ∧
    (∀ (s : OracleState) (sender pair price now : Nat),
      s.paused = false → s.validAgent sender = true → 0 < price →
      (s.reps sender).isBanned = true →
      submitPrice s sender pair price now = .error .agentBanned) ∧
    (∀ (s : OracleState) (sender pair price now : Nat) (s' : OracleState) (a : Nat),
      submitPrice s sender pair price now = .ok s' →
      (s.reps a).isBanned = true → (s'.reps a).isBanned = true) := by
  refine ⟨?_, ?_, ?_⟩
  · intro rep accurate h20 hacc
    cases accurate with
    | false =>
      simp only [updateReputation, Bool.false_eq_true, if_false]
      split_ifs with hA hB
      · rfl
      · exact absurd ⟨h20, by simpa using hacc⟩ hB
      · omega
    | true =>
      simp only [updateReputation, if_true]
      split_ifs with hA hB
      · rfl
      · refine absurd ⟨?_, ?_⟩ hB
        · simpa using h20
        · simpa using hacc
      · simp only at hA
        omega
  · intro s sender pair price now hp hv hpr hb
    rw [submitPrice, if_neg (by simp [hp]), if_neg (by simp [hv]), if_neg (by omega),
      if_pos hb]
  · intro s sender pair price now s' a h hban
    have hrec := (recordedState_reps s sender pair price now a).1
    rcases submitPrice_ok_shape s sender pair price now s' h with ⟨hc, rfl⟩ | ⟨hc, rfl⟩
    · apply calculateConsensus_banned
      rw [hrec]
      exact hban
    · rw [hrec]
      exact hban

/-- Claim C8 (amended): the consensus computation does *not* clear the
window's submission counter (it leaves it, and every lifetime
`totalSubmissions`, unchanged); the counter is cleared only by the lazy
window-expiry reset inside `submitPrice`, and a submission that triggers
that reset leaves every agent's `accurateSubmissions` unchanged and changes
`totalSubmissions` only for the submitter (by exactly one), with the new
window holding exactly the one fresh submission. -/
theorem consensus_frame_and_lazy_clear :
    (∀ (s : OracleState) (pair : Nat),
      ((calculateConsensus s pair).feeds pair).submissionCount =
        (s.feeds pair).submissionCount) ∧
    (∀ (s : OracleState) (pair a : Nat),
      ((calculateConsensus s pair).reps a).totalSubmissions =
        (s.reps a).totalSubmissions) ∧
    (∀ (s : OracleState) (sender pair price now : Nat) (s' : OracleState),
      (s.feeds pair).lastUpdate + SUBMISSION_WINDOW < now →
      submitPrice s sender pair price now = .ok s' →
      (s'.feeds pair).submissionCount = 1 ∧
      (∀ a, (s'.reps a).accurateSubmissions = (s.reps a).accurateSubmissions) ∧
      (∀ a, a ≠ sender → (s'.reps a).totalSubmissions = (s.reps a).totalSubmissions) ∧
      (s'.reps sender).totalSubmissions = (s.reps sender).totalSubmissions + 1) := by
  refine ⟨calculateConsensus_count, calculateConsensus_total, ?_⟩
  intro s sender pair price now s' hwin h
  have hwin' : (initFeed (s.feeds pair) pair).lastUpdate + SUBMISSION_WINDOW < now := by
    rw [initFeed_lastUpdate]
    exact hwin
  have hcount : ((recordedState s sender pair price now).feeds pair).submissionCount = 1 := by
    simp [recordedState, recordSubmission, resetIfExpired, hwin']
  rcases submitPrice_ok_shape s sender pair price now s' h with ⟨hc, rfl⟩ | ⟨hc, rfl⟩
  · rw [hcount] at hc
    exact absurd hc (by norm_num [MIN_SUBMISSIONS])
  · refine ⟨hcount, ?_, ?_, ?_⟩
    · intro a
      exact (recordedState_reps s sender pair price now a).2.1
    · intro a ha
      have ht := (recordedState_reps s sender pair price now a).2.2
      rw [ht, if_neg ha]
      omega
    · have ht := (recordedState_reps s sender pair price now sender).2.2
      rw [ht, if_pos rfl]

/-- Claim C6 counterexample: the deviating submission (price `1000` against
consensus `100`) fails with `excessiveDeviation`; the reputation evaluation
the claim says persists *would* ban this 20-submission / 25%-accuracy agent
(second conjunct), yet after the failed call nothing persisted: the very
same agent then submits an in-range price successfully, un-banned and with
`totalSubmissions` going `20 → 21` (third conjunct) — the penalty was
rolled back with the revert. -/
theorem deviation_penalty_rollback_cex :
    exErr (submitPrice oracleCex6 1 7 1000 1) = some OracleErr.excessiveDeviation ∧
    (updateReputation ⟨20, 5, 0, false⟩ false).isBanned = true ∧
    (submitPrice oracleCex6 1 7 101 1).toOption.map
      (fun t => ((t.reps 1).isBanned, (t.reps 1).totalSubmissions)) = some (false, 21) := by
  exact ⟨rfl, rfl, rfl⟩

/-- Witness for `deviation_guard_rejects` at the concrete C6 state. -/
theorem deviation_guard_rejects_witness :
    MAX_DEVIATION_BPS = 1000 ∧
    submitPrice oracleCex6 1 7 1000 1 = .error .excessiveDeviation :=
  deviation_guard_rejects oracleCex6 1 7 1000 1 rfl rfl (by decide) rfl (by decide) (by decide)

/-- Witness for `ban_threshold_and_permanence`: the 20th evaluation at 25%
accuracy bans; a banned registered agent's submission fails; and a ban on a
bystander survives another agent's successful submission. -/
theorem ban_threshold_and_permanence_witness :
    (updateReputation ⟨20, 5, 0, false⟩ false).isBanned = true ∧
    submitPrice oracleWit7 1 7 100 0 = .error .agentBanned ∧
    ((recordedState oracleWit7b 1 7 100 5).reps 2).isBanned = true :=
  ⟨ban_threshold_and_permanence.1 ⟨20, 5, 0, false⟩ false (by decide) (by decide),
   ban_threshold_and_permanence.2.1 oracleWit7 1 7 100 0 rfl rfl (by decide) rfl,
   ban_threshold_and_permanence.2.2 oracleWit7b 1 7 100 5
     (recordedState oracleWit7b 1 7 100 5) 2 rfl rfl⟩

/-- Claim C8 counterexample: three fresh submissions `{100, 102, 98}` for
pair `7` trigger a consensus of `100` at the third call, and the window's
`submissionCount` afterwards is `3`, not `0` — the consensus computation
did not clear the counter. -/
theorem consensus_keeps_counter_cex :
    (((submitPrice oracleCex8 1 7 100 10).bind (fun t => submitPrice t 2 7 102 10)).bind
      (fun t => submitPrice t 3 7 98 10)).toOption.map
      (fun t => ((t.feeds 7).submissionCount, (t.feeds 7).consensusPrice)) = some (3, 100) ∧
    (3 : Nat) ≠ 0 := by
  exact ⟨rfl, by decide⟩

/-- Witness for `consensus_frame_and_lazy_clear` at the concrete C8 state:
consensus on the two-entry window preserves the counter and agent 4's
total; a submission at `now = 99` (window expired) leaves one submission
in the window, keeps agent 3's totals and bumps the sender's total. -/
theorem consensus_frame_and_lazy_clear_witness :
    ((calculateConsensus oracleWit8 9).feeds 9).submissionCount =
      (oracleWit8.feeds 9).submissionCount ∧
    ((calculateConsensus oracleWit8 9).reps 4).totalSubmissions =
      (oracleWit8.reps 4).totalSubmissions ∧
    ((recordedState oracleWit8 4 9 55 99).feeds 9).submissionCount = 1 ∧
    ((recordedState oracleWit8 4 9 55 99).reps 3).accurateSubmissions =
      (oracleWit8.reps 3).accurateSubmissions ∧
    ((recordedState oracleWit8 4 9 55 99).reps 4).totalSubmissions =
      (oracleWit8.reps 4).totalSubmissions + 1 :=
  ⟨consensus_frame_and_lazy_clear.1 oracleWit8 9,
   consensus_frame_and_lazy_clear.2.1 oracleWit8 9 4,
   (consensus_frame_and_lazy_clear.2.2 oracleWit8 4 9 55 99
     (recordedState oracleWit8 4 9 55 99) (by decide) rfl).1,
   (consensus_frame_and_lazy_clear.2.2 oracleWit8 4 9 55 99
     (recordedState oracleWit8 4 9 55 99) (by decide) rfl).2.1 3,
   (consensus_frame_and_lazy_clear.2.2 oracleWit8 4 9 55 99
     (recordedState oracleWit8 4 9 55 99) (by decide) rfl).2.2.2⟩

end AgentOracle
